import Mathlib

/-!
Shallow embedding of the image compressor in `src/src/lib/ImageDeepCABAC.ts`
(class `ImageDeepCABAC`).  JavaScript numbers are modelled by exact rationals
(`ℚ`); every arithmetic step below mirrors the corresponding source line.
Context keys, which the source builds as delimited strings of the preceding
sample values and the current value, are modelled structurally as the pair
(preceding samples, value); the frequency table is an association list over
those keys.  The arithmetic coder's `while` renormalization loop is modelled
with an explicit iteration bound (`fuel`); all theorems below that touch it
hold for every value of the bound, and on the states the program actually
reaches the loop body never runs, so the bound is never consumed.
-/

namespace ImageDeepCABAC

/-- Color space option, `'RGB' | 'YCbCr'` in the source. -/
inductive ColorSpace where
  | RGB : ColorSpace
  | YCbCr : ColorSpace
deriving DecidableEq, Repr

/-- Resolved options record (`this.options` after the constructor ran). -/
structure CompressOptions where
  blockSize : ℤ
  quantizationLevel : ℤ
  colorSpace : ColorSpace
deriving DecidableEq, Repr

/-- Context key: the up-to-4 preceding sample values together with the coded
value (the source concatenates them into the string `context ++ "_" ++ value`;
lookups never succeed because the table is never written, so the structural
pairing is an equivalent key model). -/
abbrev ContextKey := List ℚ × ℚ

/-- The `contexts` frequency table: `Map<string, { frequency: number }>`,
modelled as an association list keyed by `ContextKey` with natural-number
counts (the data model's counts are non-negative integers). -/
abbrev Table := List (ContextKey × ℕ)

/-- JavaScript `a || b` for a possibly-absent numeric option: an absent value
or the falsy number `0` yields the default. -/
def jsOrDefault (o : Option ℤ) (d : ℤ) : ℤ :=
  match o with
  | none => d
  | some v => if v = 0 then d else v

/-- Constructor (source lines 11-18): resolves the options with defaults
`blockSize = 8`, `quantizationLevel = 8`, `colorSpace = YCbCr`, and creates
the empty `contexts` map. -/
def mkImageDeepCABAC (bs ql : Option ℤ) (cs : Option ColorSpace) :
    CompressOptions × Table :=
  ({ blockSize := jsOrDefault bs 8
     quantizationLevel := jsOrDefault ql 8
     colorSpace := cs.getD ColorSpace.YCbCr }, [])

/-- Raw RGBA image: flat row-major byte buffer, 4 channels per pixel. -/
structure ImageData where
  width : ℕ
  height : ℕ
  data : List ℕ
deriving DecidableEq, Repr

/-- Scalar RGB to YCbCr conversion, source lines 24-29. -/
def rgbToYCbCr (r g b : ℚ) : ℚ × ℚ × ℚ :=
  (0.299 * r + 0.587 * g + 0.114 * b,
   128 - 0.168736 * r - 0.331264 * g + 0.5 * b,
   128 + 0.5 * r - 0.418688 * g - 0.081312 * b)

/-- Drops every fourth byte of the RGBA stream, as
`tf.browser.fromPixels(imageData)` does with its default of 3 channels. -/
def dropAlpha : List ℕ → List ℕ
  | r :: g :: b :: _ :: rest => r :: g :: b :: dropAlpha rest
  | l => l

/-- Ingestion (`loadImage`, source lines 20-22): the RGBA buffer becomes a
flat row-major (height, width, 3) volume of numbers. -/
def fromPixels (img : ImageData) : List ℚ :=
  (dropAlpha img.data).map fun n => (n : ℚ)

/-- Padded extent `Math.ceil(d / bs) * bs` for a positive block size. -/
def paddedDim (d bs : ℕ) : ℕ := ((d + bs - 1) / bs) * bs

/-- Trailing-edge zero padding (`tf.pad`, source lines 38-42): sample
(i, j, k) of the (paddedHeight, paddedWidth, c) output is the input sample at
the same position when it exists and 0 otherwise, in row-major flat order. -/
def padVolume (h w c bs : ℕ) (data : List ℚ) : List ℚ :=
  let pw := paddedDim w bs
  (List.range (paddedDim h bs * pw * c)).map fun idx =>
    let i := idx / (pw * c)
    let j := (idx % (pw * c)) / c
    let k := idx % c
    if i < h ∧ j < w then data.getD ((i * w + j) * c + k) 0 else 0

/-- Block tiler (`createImageBlocks`, source lines 31-51): pad, then
`tf.reshape(padded, [-1, bs, bs, c])`, i.e. reinterpret the row-major flat
data as consecutive chunks of `bs * bs * c` samples. -/
def createImageBlocks (h w c bs : ℕ) (data : List ℚ) : List (List ℚ) :=
  let padded := padVolume h w c bs data
  let sz := bs * bs * c
  (List.range (padded.length / sz)).map fun k => (padded.drop (k * sz)).take sz

/-- Scalar quantizer (`quantizeBlock`, source lines 53-56):
`floor(x / step) * step` with `step = 256 / quantizationLevel`. -/
def quantizeSample (L : ℤ) (x : ℚ) : ℚ :=
  (⌊x / (256 / (L : ℚ))⌋ : ℚ) * (256 / (L : ℚ))

/-- Elementwise quantization of a sample volume. -/
def quantizeVolume (L : ℤ) (v : List ℚ) : List ℚ := v.map (quantizeSample L)

/-- The per-pixel channel conversion performed inside `compress` (source
lines 67-77): output channel i is `channel_i * A_i + others_0 * B_i +
others_1 * C_i` where `others` are the two remaining channels in order, so
the three outputs are r*0.299 + g*0.587 + b*0.114, g*(-0.168736) +
(r*(-0.331264) + b*0.5), and b*0.5 + (r*(-0.418688) + g*(-0.081312)). -/
def codeYCbCrTriple (r g b : ℚ) : ℚ × ℚ × ℚ :=
  (r * 0.299 + (g * 0.587 + b * 0.114),
   g * (-0.168736) + (r * (-0.331264) + b * 0.5),
   b * 0.5 + (r * (-0.418688) + g * (-0.081312)))

/-- Applies `codeYCbCrTriple` to every consecutive channel triple of a flat
volume (the source splits the last axis into 3 channels, maps, and stacks
them back; on the row-major flat data that is a per-triple map). -/
def applyCodeTransform : List ℚ → List ℚ
  | r :: g :: b :: rest =>
      (codeYCbCrTriple r g b).1 :: (codeYCbCrTriple r g b).2.1 ::
        (codeYCbCrTriple r g b).2.2 :: applyCodeTransform rest
  | l => l

/-- Causal context (`getBlockContext`, source lines 143-152): the samples at
positions max(0, index - 4) .. index - 1 of the flattened block. -/
def getBlockContext (block : List ℚ) (index : ℕ) : List ℚ :=
  (block.take index).drop (index - 4)

/-- Lower endpoint formula of `getProbability`: `count / (total + 1)`. -/
def probLow (count total : ℕ) : ℚ := (count : ℚ) / ((total : ℚ) + 1)

/-- Upper endpoint formula of `getProbability`: `(count + 1) / (total + 1)`. -/
def probHigh (count total : ℕ) : ℚ := ((count : ℚ) + 1) / ((total : ℚ) + 1)

/-- Lookup of a key's frequency; 0 when absent (`this.contexts.get(key)
?.frequency || 0`). -/
def getFrequency : Table → ContextKey → ℕ
  | [], _ => 0
  | (k, f) :: rest, key => if k = key then f else getFrequency rest key

/-- Global sum of all recorded frequencies (source lines 157-158). -/
def totalFreq (t : Table) : ℕ := (t.map fun e => e.2).sum

/-- Probability interval (`getProbability`, source lines 154-164). -/
def getProbability (t : Table) (value : ℚ) (context : List ℚ) : ℚ × ℚ :=
  let c := getFrequency t (context, value)
  let total := totalFreq t
  (probLow c total, probHigh c total)

/-- JavaScript `Math.trunc`-style integer part (toward zero), used to model
the `%` remainder operator. -/
def jsTrunc (x : ℚ) : ℤ := if 0 ≤ x then ⌊x⌋ else ⌈x⌉

/-- JavaScript `x % 1`: remainder with the sign of the dividend. -/
def jsMod1 (x : ℚ) : ℚ := x - (jsTrunc x : ℚ)

/-- Renormalization loop of `compressBlock` (source lines 132-137), with an
explicit iteration bound: while both endpoints are in [0, 0.5) or both in
[0.5, 1), emit the shared leading bit and double both endpoints modulo 1.
Returns the emitted bits and the final endpoints. -/
def renormWhile : ℕ → ℚ → ℚ → List ℕ × ℚ × ℚ
  | 0, low, high => ([], low, high)
  | fuel + 1, low, high =>
      if (high < 0.5 ∧ low < 0.5) ∨ (0.5 ≤ high ∧ 0.5 ≤ low) then
        let bit : ℕ := if high < 0.5 then 0 else 1
        let rest := renormWhile fuel (jsMod1 (low * 2)) (jsMod1 (high * 2))
        (bit :: rest.1, rest.2)
      else ([], low, high)

/-- One iteration of the `for` loop of `compressBlock` (source lines
122-138): narrow the interval by the modelled probability of sample i, then
renormalize.  The state is (emitted bits, low, high). -/
def codeStep (fuel : ℕ) (t : Table) (block : List ℚ)
    (st : List ℕ × ℚ × ℚ) (i : ℕ) : List ℕ × ℚ × ℚ :=
  let context := getBlockContext block i
  let value := block.getD i 0
  let range := st.2.2 - st.2.1
  let p := getProbability t value context
  let high := st.2.1 + range * p.2
  let low := st.2.1 + range * p.1
  let r := renormWhile fuel low high
  (st.1 ++ r.1, r.2)

/-- Arithmetic coder over one flattened block (`compressBlock`, source lines
117-141): starting from low = 0, high = 1, fold `codeStep` over the sample
indices and return the emitted bits. -/
def compressBlock (fuel : ℕ) (t : Table) (block : List ℚ) : List ℕ :=
  ((List.range block.length).foldl (codeStep fuel t block) ([], 0, 1)).1

/-- Per-block coding (`compressBlocks`, source lines 105-115): each block of
the 4-D volume is flattened (already flat here) and coded independently. -/
def compressBlocks (fuel : ℕ) (t : Table) (blocks : List (List ℚ)) :
    List (List ℕ) :=
  blocks.map (compressBlock fuel t)

/-- Tiling stage of `compress` (source line 60): the ingested volume is cut
into blocks.  Scope note: a negative `blockSize` (reachable, since the
constructor stores any non-zero value unchanged) makes the source throw
inside the tensor padding/reshape calls, mid-pipeline; that abort is not
modelled here (`Int.toNat` would collapse it), so theorems about `compress`
only assert behavior for a positive `blockSize` — either a concrete one or
under the hypothesis `0 < cfg.blockSize` — and claim nothing about negative
block sizes. -/
def tileStage (cfg : CompressOptions) (img : ImageData) : List (List ℚ) :=
  createImageBlocks img.height img.width 3 cfg.blockSize.toNat (fromPixels img)

/-- Quantization stage of `compress` (source line 61), elementwise over the
tiled volume. -/
def quantizeStage (cfg : CompressOptions) (blocks : List (List ℚ)) :
    List (List ℚ) :=
  blocks.map (quantizeVolume cfg.quantizationLevel)

/-- Color-conversion stage of `compress` (source lines 64-80): applied to the
already quantized blocks when the configured color space is YCbCr, identity
otherwise. -/
def transformStage (cfg : CompressOptions) (blocks : List (List ℚ)) :
    List (List ℚ) :=
  match cfg.colorSpace with
  | ColorSpace.YCbCr => blocks.map applyCodeTransform
  | ColorSpace.RGB => blocks

/-- The volume handed to the entropy coder by `compress`: tile, then
quantize, then color-convert, in the source's order (lines 60-80). -/
def processedBlocks (cfg : CompressOptions) (img : ImageData) :
    List (List ℚ) :=
  transformStage cfg (quantizeStage cfg (tileStage cfg img))

/-- Result of `compress` (source lines 93-102): per-block bit sequences plus
metadata echoing the input dimensions and the resolved options. -/
structure CompressResult where
  compressed : List (List ℕ)
  width : ℕ
  height : ℕ
  colorSpace : ColorSpace
  blockSize : ℤ
  quantizationLevel : ℤ
deriving DecidableEq, Repr

/-- Orchestrator (`compress`, source lines 58-103). -/
def compress (fuel : ℕ) (cfg : CompressOptions) (t : Table)
    (img : ImageData) : CompressResult :=
  { compressed := compressBlocks fuel t (processedBlocks cfg img)
    width := img.width
    height := img.height
    colorSpace := cfg.colorSpace
    blockSize := cfg.blockSize
    quantizationLevel := cfg.quantizationLevel }

/-- State of the `contexts` table after one `compress` call.  The source's
entire `compress` call graph (`compressBlocks`, `compressBlock`,
`getBlockContext`, `getProbability`) only ever reads the map (`get`,
`values`); no statement calls `set` or `delete` on `this.contexts`, so the
post-state of the table is its pre-state. -/
def tableAfterCompress (fuel : ℕ) (cfg : CompressOptions) (img : ImageData)
    (t : Table) : Table :=
  let _ := compress fuel cfg t img
  t

/-- Tables reachable from the freshly constructed instance by any finite
sequence of `compress` calls. -/
inductive ReachableTable : Table → Prop where
  | init : ReachableTable []
  | step : ∀ (t : Table) (fuel : ℕ) (cfg : CompressOptions) (img : ImageData),
      ReachableTable t → ReachableTable (tableAfterCompress fuel cfg img t)

/-- Concrete configuration of spec Scenario A (claim C3): blockSize 8,
quantizationLevel 16, YCbCr. -/
def cfg3 : CompressOptions :=
  (mkImageDeepCABAC (some 8) (some 16) (some ColorSpace.YCbCr)).1

/-- Concrete 16-by-16 RGBA image of spec Scenario A (claim C3). -/
def img16 : ImageData := ⟨16, 16, List.replicate 1024 7⟩

/-- Concrete small configuration used for witnesses: blockSize 1, RGB. -/
def cfgW : CompressOptions := ⟨1, 8, ColorSpace.RGB⟩

/-- Concrete 1-by-1 black RGBA image used for witnesses. -/
def imgW : ImageData := ⟨1, 1, [0, 0, 0, 0]⟩

/-- Concrete configuration with a negative quantization level (claim C7),
as the constructor resolves it. -/
def cfgNeg : CompressOptions :=
  (mkImageDeepCABAC (some 1) (some (-4)) (some ColorSpace.RGB)).1

/-- Concrete configuration for the stage-order counterexample (claim C4). -/
def cfgC4 : CompressOptions := ⟨1, 8, ColorSpace.YCbCr⟩

/-- Concrete 1-by-1 blue RGBA image for the stage-order counterexample
(claim C4). -/
def imgC4 : ImageData := ⟨1, 1, [0, 0, 255, 255]⟩

/-- Concrete 2-by-4 single-channel volume for the tiling counterexample
(claim C6). -/
def dataC6 : List ℚ := [0, 1, 2, 3, 4, 5, 6, 7]

/-- Written from the spec's words for comparison with `createImageBlocks`
(claim C6): block k is the spatial blockSize-by-blockSize tile of the padded
image, tiles enumerated left-to-right, top-to-bottom. -/
def spatialBlocks (h w c bs : ℕ) (data : List ℚ) : List (List ℚ) :=
  let pw := paddedDim w bs
  let cols := pw / bs
  (List.range ((paddedDim h bs / bs) * cols)).map fun k =>
    (List.range (bs * bs * c)).map fun m =>
      let i := m / (bs * c)
      let j := (m % (bs * c)) / c
      let ch := m % c
      (padVolume h w c bs data).getD
        (((k / cols * bs + i) * pw + (k % cols * bs + j)) * c + ch) 0

/-- Written from the spec's words for comparison with `processedBlocks`
(claim C4): the color transform applied to the pixel volume first, then
tiling, then quantization. -/
def specOrderProcessedBlocks (cfg : CompressOptions) (img : ImageData) :
    List (List ℚ) :=
  let transformed :=
    match cfg.colorSpace with
    | ColorSpace.YCbCr => applyCodeTransform (fromPixels img)
    | ColorSpace.RGB => fromPixels img
  (createImageBlocks img.height img.width 3 cfg.blockSize.toNat
      transformed).map (quantizeVolume cfg.quantizationLevel)

/-! Helper lemmas shared by the claim theorems. -/

theorem getProbability_nil (v : ℚ) (ctx : List ℚ) :
    getProbability [] v ctx = (0, 1) := by
  norm_num [getProbability, getFrequency, totalFreq, probLow, probHigh]

theorem renormWhile_zero_one (fuel : ℕ) : renormWhile fuel 0 1 = ([], 0, 1) := by
  cases fuel with
  | zero => rfl
  | succ n => norm_num [renormWhile]

theorem codeStep_nil (fuel : ℕ) (block : List ℚ) (i : ℕ) :
    codeStep fuel [] block ([], 0, 1) i = ([], 0, 1) := by
  simp [codeStep, getProbability_nil, renormWhile_zero_one]

theorem foldl_codeStep_nil (fuel : ℕ) (block : List ℚ) (l : List ℕ) :
    l.foldl (codeStep fuel [] block) ([], 0, 1) = ([], 0, 1) := by
  induction l with
  | nil => rfl
  | cons a t ih => rw [List.foldl_cons, codeStep_nil, ih]

theorem compressBlock_nil (fuel : ℕ) (block : List ℚ) :
    compressBlock fuel [] block = [] := by
  rw [compressBlock, foldl_codeStep_nil]

theorem map_compressBlock_nil (fuel : ℕ) (l : List (List ℚ)) :
    l.map (compressBlock fuel []) = List.replicate l.length [] := by
  induction l with
  | nil => rfl
  | cons b t ih => simp [compressBlock_nil, ih, List.replicate_succ]

theorem compress_compressed_nil (fuel : ℕ) (cfg : CompressOptions)
    (img : ImageData) :
    (compress fuel cfg [] img).compressed =
      List.replicate (processedBlocks cfg img).length [] :=
  map_compressBlock_nil fuel (processedBlocks cfg img)

theorem length_padVolume (h w c bs : ℕ) (data : List ℚ) :
    (padVolume h w c bs data).length = paddedDim h bs * paddedDim w bs * c := by
  simp [padVolume]

theorem length_createImageBlocks (h w c bs : ℕ) (data : List ℚ) :
    (createImageBlocks h w c bs data).length =
      paddedDim h bs * paddedDim w bs * c / (bs * bs * c) := by
  simp [createImageBlocks, length_padVolume]

theorem length_transformStage (cfg : CompressOptions) (blocks : List (List ℚ)) :
    (transformStage cfg blocks).length = blocks.length := by
  rcases hcs : cfg.colorSpace <;> simp [transformStage, hcs]

theorem length_processedBlocks (cfg : CompressOptions) (img : ImageData) :
    (processedBlocks cfg img).length =
      paddedDim img.height cfg.blockSize.toNat *
          paddedDim img.width cfg.blockSize.toNat * 3 /
        (cfg.blockSize.toNat * cfg.blockSize.toNat * 3) := by
  rw [processedBlocks, length_transformStage]
  simp [quantizeStage, tileStage, length_createImageBlocks]

theorem length_processedBlocks_cfg3 :
    (processedBlocks cfg3 img16).length = 4 := by
  rw [length_processedBlocks]
  have h8 : ((8 : ℤ)).toNat = 8 := rfl
  norm_num [cfg3, img16, mkImageDeepCABAC, jsOrDefault, paddedDim, h8]

theorem compress_cfg3_img16 (fuel : ℕ) :
    (compress fuel cfg3 [] img16).compressed = [[], [], [], []] := by
  rw [compress_compressed_nil, length_processedBlocks_cfg3]
  rfl

theorem getD_range_map {α : Type} (n k : ℕ) (f : ℕ → α) (d : α) (hk : k < n) :
    ((List.range n).map f).getD k d = f k := by
  rw [List.getD_eq_getElem?_getD, List.getElem?_map, List.getElem?_range hk]
  rfl

theorem padVolume_getD (h w c bs : ℕ) (data : List ℚ) (i j ch : ℕ)
    (hi : i < paddedDim h bs) (hj : j < paddedDim w bs) (hch : ch < c) :
    (padVolume h w c bs data).getD ((i * paddedDim w bs + j) * c + ch) 0 =
      if i < h ∧ j < w then data.getD ((i * w + j) * c + ch) 0 else 0 := by
  have hc : 0 < c := Nat.pos_of_ne_zero fun hc0 => by omega
  have hjc : j * c + ch < paddedDim w bs * c := by
    calc j * c + ch < j * c + c := by omega
    _ = (j + 1) * c := by ring
    _ ≤ paddedDim w bs * c := Nat.mul_le_mul_right c (by omega)
  have hidx : (i * paddedDim w bs + j) * c + ch <
      paddedDim h bs * paddedDim w bs * c := by
    calc (i * paddedDim w bs + j) * c + ch
        < (i * paddedDim w bs + j) * c + c := by omega
    _ = (i * paddedDim w bs + j + 1) * c := by ring
    _ ≤ paddedDim h bs * paddedDim w bs * c := by
        refine Nat.mul_le_mul_right c ?_
        calc i * paddedDim w bs + j + 1 ≤ i * paddedDim w bs + paddedDim w bs := by
              omega
        _ = (i + 1) * paddedDim w bs := by ring
        _ ≤ paddedDim h bs * paddedDim w bs := Nat.mul_le_mul_right _ (by omega)
  have heq : (i * paddedDim w bs + j) * c + ch =
      paddedDim w bs * c * i + (j * c + ch) := by ring
  have h1 : ((i * paddedDim w bs + j) * c + ch) / (paddedDim w bs * c) = i := by
    rw [heq, Nat.mul_add_div (Nat.mul_pos (by omega) hc), Nat.div_eq_of_lt hjc,
      add_zero]
  have hmod : ((i * paddedDim w bs + j) * c + ch) % (paddedDim w bs * c) =
      j * c + ch := by
    rw [heq, Nat.mul_add_mod, Nat.mod_eq_of_lt hjc]
  have h2 : (((i * paddedDim w bs + j) * c + ch) % (paddedDim w bs * c)) / c = j := by
    rw [hmod]
    have hj' : j * c + ch = c * j + ch := by ring
    rw [hj', Nat.mul_add_div hc, Nat.div_eq_of_lt hch, add_zero]
  have h3 : ((i * paddedDim w bs + j) * c + ch) % c = ch := by
    have hx : (i * paddedDim w bs + j) * c + ch =
        c * (i * paddedDim w bs + j) + ch := by ring
    rw [hx, Nat.mul_add_mod, Nat.mod_eq_of_lt hch]
  rw [padVolume, getD_range_map _ _ _ _ hidx]
  simp only [h1, h2, h3]

theorem createImageBlocks_count (h w c bs : ℕ) (data : List ℚ)
    (hbs : 0 < bs) (hc : 0 < c) :
    (createImageBlocks h w c bs data).length =
      ((h + bs - 1) / bs) * ((w + bs - 1) / bs) := by
  rw [length_createImageBlocks]
  have hph : paddedDim h bs = ((h + bs - 1) / bs) * bs := rfl
  have hpw : paddedDim w bs = ((w + bs - 1) / bs) * bs := rfl
  rw [hph, hpw]
  have hfac : ((h + bs - 1) / bs) * bs * (((w + bs - 1) / bs) * bs) * c =
      (((h + bs - 1) / bs) * ((w + bs - 1) / bs)) * (bs * bs * c) := by ring
  rw [hfac, Nat.mul_div_cancel _ (Nat.mul_pos (Nat.mul_pos hbs hbs) hc)]

theorem createImageBlocks_getD (h w c bs : ℕ) (data : List ℚ) (k : ℕ)
    (hk : k < (createImageBlocks h w c bs data).length) :
    (createImageBlocks h w c bs data).getD k [] =
      ((padVolume h w c bs data).drop (k * (bs * bs * c))).take (bs * bs * c) := by
  rw [length_createImageBlocks] at hk
  have hk' : k < (padVolume h w c bs data).length / (bs * bs * c) := by
    rw [length_padVolume]
    exact hk
  simp only [createImageBlocks]
  exact getD_range_map _ _ _ _ hk'

theorem getFrequency_le_totalFreq (t : Table) (k : ContextKey) :
    getFrequency t k ≤ totalFreq t := by
  induction t with
  | nil => simp [getFrequency, totalFreq]
  | cons e rest ih =>
      obtain ⟨ek, ef⟩ := e
      simp only [getFrequency, totalFreq, List.map_cons, List.sum_cons]
      split
      · exact Nat.le_add_right _ _
      · exact le_trans ih (Nat.le_add_left _ _)

theorem interval_valid (c t : ℕ) (hct : c ≤ t) :
    0 ≤ probLow c t ∧ probLow c t < probHigh c t ∧ probHigh c t ≤ 1 := by
  have hpos : (0 : ℚ) < (t : ℚ) + 1 := by positivity
  refine ⟨div_nonneg (by positivity) (le_of_lt hpos), ?_, ?_⟩
  · rw [probLow, probHigh, div_eq_mul_inv, div_eq_mul_inv]
    exact mul_lt_mul_of_pos_right (by linarith) (inv_pos.mpr hpos)
  · rw [probHigh, div_le_one hpos]
    have hcast : (c : ℚ) ≤ (t : ℚ) := by exact_mod_cast hct
    linarith

theorem quantize_idem (L : ℤ) (hL : 0 < L) (x : ℚ) :
    quantizeSample L (quantizeSample L x) = quantizeSample L x := by
  have hstep : (256 : ℚ) / (L : ℚ) ≠ 0 := by
    have hL' : (0 : ℚ) < (L : ℚ) := by exact_mod_cast hL
    exact ne_of_gt (div_pos (by norm_num) hL')
  rw [quantizeSample, quantizeSample, mul_div_cancel_right₀ _ hstep,
    Int.floor_intCast]

theorem length_processedBlocks_cfgW :
    (processedBlocks cfgW imgW).length = 1 := by
  rw [length_processedBlocks]
  have h1 : ((1 : ℤ)).toNat = 1 := rfl
  norm_num [cfgW, imgW, paddedDim, h1]

theorem compress_cfgW_imgW (fuel : ℕ) :
    (compress fuel cfgW [] imgW).compressed = [[]] := by
  rw [compress_compressed_nil, length_processedBlocks_cfgW]
  rfl

theorem length_processedBlocks_cfgNeg :
    (processedBlocks cfgNeg imgW).length = 1 := by
  rw [length_processedBlocks]
  norm_num [cfgNeg, imgW, paddedDim, mkImageDeepCABAC, jsOrDefault]

theorem compress_cfgNeg_imgW (fuel : ℕ) :
    (compress fuel cfgNeg [] imgW).compressed = [[]] := by
  rw [compress_compressed_nil, length_processedBlocks_cfgNeg]
  rfl

/-! Claim theorems. -/

/-- Claim C1, counterexample: the claim asserts that with the empty contexts
table the renormalization loop emits exactly one bit per sample, so the block
[0] should produce one bit; in fact `compressBlock` emits no bit at all (the
interval stays [0,1), which satisfies neither renormalization condition). -/
theorem C1_counterexample : ¬ ((compressBlock 5 [] [0]).length = 1) := by
  rw [compressBlock_nil]
  decide

/-- Claim C1, amended: with the unmodified (non-adaptive) context model every
probability interval returned by `getProbability` is exactly [0,1), and the
renormalization loop emits zero bits per sample, so the emitted bit sequence
of every block is empty. -/
theorem C1_amended : ∀ (fuel : ℕ) (block : List ℚ) (i : ℕ),
    getProbability [] (block.getD i 0) (getBlockContext block i) = (0, 1) ∧
    (compressBlock fuel [] block).length = 0 := by
  intro fuel block i
  exact ⟨getProbability_nil _ _, by rw [compressBlock_nil]; rfl⟩

/-- Claim C2: for every input block `compressBlock` returns the empty bit
sequence on the empty contexts table (the interval stays exactly [0,1) and
the renormalization condition never holds), and consequently every per-block
array in the result of `compress` is empty. -/
theorem C2_theorem : ∀ (fuel : ℕ) (block : List ℚ) (cfg : CompressOptions)
    (img : ImageData) (l : List ℕ),
    compressBlock fuel [] block = [] ∧
    (l ∈ (compress fuel cfg [] img).compressed → l = []) := by
  intro fuel block cfg img l
  refine ⟨compressBlock_nil fuel block, fun hl => ?_⟩
  rw [compress_compressed_nil] at hl
  exact List.eq_of_mem_replicate hl

/-- Claim C2, witness: the theorem applied to the block [5] and to the
bit sequence of the 1-by-1 image compressed with block size 1. -/
theorem C2_witness : compressBlock 1 [] [5] = [] ∧ ([] : List ℕ) = [] := by
  have hmem : ([] : List ℕ) ∈ (compress 1 cfgW [] imgW).compressed := by
    rw [compress_cfgW_imgW]
    exact List.mem_singleton_self _
  exact ⟨(C2_theorem 1 [5] cfgW imgW []).1, (C2_theorem 1 [5] cfgW imgW []).2 hmem⟩

/-- Claim C3, counterexample: for the 16-by-16 RGBA image with blockSize 8,
quantizationLevel 16 and YCbCr, the claim asserts every per-block bit
sequence is non-empty; in fact every one of the 4 sequences is empty. -/
theorem C3_counterexample :
    ¬ (∀ l ∈ (compress 2 cfg3 [] img16).compressed, l ≠ []) := by
  intro hall
  exact hall [] (by rw [compress_cfg3_img16]; exact List.mem_cons_self _ _) rfl

/-- Claim C3, amended: for the 16-by-16 RGBA image compressed with
blockSize 8, quantizationLevel 16 and YCbCr, `compress` returns exactly 4
per-block bit sequences, each of them empty, and the metadata echoes
width 16, height 16, blockSize 8, quantizationLevel 16. -/
theorem C3_amended : ∀ (fuel : ℕ),
    (compress fuel cfg3 [] img16).compressed = [[], [], [], []] ∧
    (compress fuel cfg3 [] img16).width = 16 ∧
    (compress fuel cfg3 [] img16).height = 16 ∧
    (compress fuel cfg3 [] img16).blockSize = 8 ∧
    (compress fuel cfg3 [] img16).quantizationLevel = 16 := by
  intro fuel
  refine ⟨compress_cfg3_img16 fuel, rfl, rfl, ?_, ?_⟩ <;>
    simp [compress, cfg3, mkImageDeepCABAC, jsOrDefault]

/-- Claim C4, counterexample: applying the color transform to the pixel
volume before tiling and quantization (the claimed order) produces a
different processed volume than the source's order (tile, quantize, then
transform) on a concrete 1-by-1 blue image with blockSize 1 and
quantizationLevel 8. -/
theorem C4_counterexample :
    processedBlocks cfgC4 imgC4 ≠ specOrderProcessedBlocks cfgC4 imgC4 := by
  norm_num [processedBlocks, specOrderProcessedBlocks, transformStage,
    quantizeStage, tileStage, createImageBlocks, padVolume, paddedDim,
    fromPixels, dropAlpha, cfgC4, imgC4, applyCodeTransform, codeYCbCrTriple,
    quantizeVolume, quantizeSample, List.range_succ]

/-- Claim C4, amended: `compress` applies block tiling first, then
quantization, then the color transform, then per-block entropy coding (the
color transform is applied to the already tiled and quantized volume). -/
theorem C4_amended : ∀ (fuel : ℕ) (cfg : CompressOptions) (t : Table)
    (img : ImageData),
    (compress fuel cfg t img).compressed =
      compressBlocks fuel t
        (transformStage cfg (quantizeStage cfg (tileStage cfg img))) :=
  fun _ _ _ _ => rfl

/-- Claim C5 (code bug): the per-pixel conversion inside `compress` does not
compute the same triple as `rgbToYCbCr`: at (R, G, B) = (0, 0, 0) the
in-compress code yields (0, 0, 0) while `rgbToYCbCr` yields (0, 128, 128)
(the inline version drops the +128 chroma offsets and pairs the chroma
coefficients with the wrong input channels). -/
theorem C5_code_bug_eval :
    codeYCbCrTriple 0 0 0 = (0, 0, 0) ∧ rgbToYCbCr 0 0 0 = (0, 128, 128) ∧
    codeYCbCrTriple 0 0 0 ≠ rgbToYCbCr 0 0 0 := by
  norm_num [codeYCbCrTriple, rgbToYCbCr, Prod.ext_iff]

set_option maxRecDepth 4000 in
/-- Claim C6, counterexample: for a 2-by-4 single-channel volume with
blockSize 2 the blocks produced by `createImageBlocks` (a flat row-major
reshape) differ from the spatial 2-by-2 tiles enumerated left-to-right,
top-to-bottom that the claim describes. -/
theorem C6_counterexample :
    createImageBlocks 2 4 1 2 dataC6 ≠ spatialBlocks 2 4 1 2 dataC6 := by
  norm_num [createImageBlocks, spatialBlocks, padVolume, paddedDim, dataC6,
    List.range_succ]

/-- Claim C6, amended: `createImageBlocks` zero-pads only on the trailing
edges, produces exactly ceil(h/bs) * ceil(w/bs) blocks, and block k consists
of the consecutive flat row-major samples k*bs*bs*c .. (k+1)*bs*bs*c - 1 of
the padded volume (not the spatial bs-by-bs tiles); every original sample is
preserved at its padded flat position and all padded samples are exactly 0. -/
theorem C6_amended : ∀ (h w c bs : ℕ) (data : List ℚ), 0 < bs → 0 < c →
    (createImageBlocks h w c bs data).length =
      ((h + bs - 1) / bs) * ((w + bs - 1) / bs) ∧
    (∀ k, k < (createImageBlocks h w c bs data).length →
      (createImageBlocks h w c bs data).getD k [] =
        ((padVolume h w c bs data).drop (k * (bs * bs * c))).take (bs * bs * c)) ∧
    (∀ i j ch, i < paddedDim h bs → j < paddedDim w bs → ch < c →
      (padVolume h w c bs data).getD ((i * paddedDim w bs + j) * c + ch) 0 =
        if i < h ∧ j < w then data.getD ((i * w + j) * c + ch) 0 else 0) := by
  intro h w c bs data hbs hc
  exact ⟨createImageBlocks_count h w c bs data hbs hc,
    fun k hk => createImageBlocks_getD h w c bs data k hk,
    fun i j ch hi hj hch => padVolume_getD h w c bs data i j ch hi hj hch⟩

/-- Claim C6, witness: the amended theorem applied to the concrete 2-by-4
single-channel volume with blockSize 2. -/
theorem C6_witness : 0 < 2 ∧ 0 < 1 ∧
    (createImageBlocks 2 4 1 2 dataC6).length =
      ((2 + 2 - 1) / 2) * ((4 + 2 - 1) / 2) :=
  ⟨by decide, by decide, (C6_amended 2 4 1 2 dataC6 (by decide) (by decide)).1⟩

/-- Claim C7, counterexample: with the constructor-resolved configuration
holding the negative quantization level -4, no error is reported and
processing runs to completion: `compress` returns a full result (one
per-block bit sequence and metadata echoing the negative level), refuting
the claim that a fatal configuration error precedes any processing. -/
theorem C7_counterexample :
    cfgNeg.quantizationLevel = -4 ∧
    (compress 1 cfgNeg [] imgW).compressed = [[]] ∧
    (compress 1 cfgNeg [] imgW).quantizationLevel = -4 :=
  ⟨by decide, compress_cfgNeg_imgW 1, by decide⟩

/-- Claim C7, amended: no configuration validation exists: an option value
of 0 is silently replaced by the default 8 (JavaScript `||`), any other
value including negatives is stored unchanged, and for every configuration
with a positive blockSize — in particular for every non-positive
quantization level — `compress` runs every stage to completion and returns
a result whose metadata echoes the stored options; no configuration error
is reported before processing.  (A negative blockSize is not rejected by
any check either; it aborts later inside the tensor library, mid-pipeline,
which is outside this model's scope.) -/
theorem C7_amended : ∀ (ql : ℤ) (fuel : ℕ) (cfg : CompressOptions) (t : Table)
    (img : ImageData),
    (mkImageDeepCABAC (some 0) (some 0) none).1 =
      { blockSize := 8, quantizationLevel := 8,
        colorSpace := ColorSpace.YCbCr } ∧
    (ql ≠ 0 → (mkImageDeepCABAC none (some ql) none).1.quantizationLevel = ql) ∧
    (0 < cfg.blockSize →
      (compress fuel cfg t img).quantizationLevel = cfg.quantizationLevel ∧
      (compress fuel cfg t img).compressed.length =
        (processedBlocks cfg img).length) := by
  intro ql fuel cfg t img
  refine ⟨by decide, fun hql => ?_, fun _ => ⟨rfl, ?_⟩⟩
  · simp [mkImageDeepCABAC, jsOrDefault, hql]
  · simp [compress, compressBlocks]

/-- Claim C7, witness: the amended theorem applied to the quantization level
-4 and the concrete configuration with blockSize 1 on the 1-by-1 image. -/
theorem C7_witness : ((-4 : ℤ) ≠ 0) ∧ (0 < cfgNeg.blockSize) ∧
    (mkImageDeepCABAC none (some (-4)) none).1.quantizationLevel = -4 ∧
    (compress 1 cfgNeg [] imgW).quantizationLevel = cfgNeg.quantizationLevel :=
  ⟨by decide, by decide, (C7_amended (-4) 1 cfgNeg [] imgW).2.1 (by decide),
    ((C7_amended (-4) 1 cfgNeg [] imgW).2.2 (by decide)).1⟩

/-- Claim C8: for every sample x and positive integer level L, the quantizer
computes floor(x / step) * step with step = 256 / L, and is idempotent. -/
theorem C8_theorem : ∀ (L : ℤ), 0 < L → ∀ x : ℚ,
    quantizeSample L x = (⌊x / (256 / (L : ℚ))⌋ : ℚ) * (256 / (L : ℚ)) ∧
    quantizeSample L (quantizeSample L x) = quantizeSample L x := by
  intro L hL x
  exact ⟨rfl, quantize_idem L hL x⟩

/-- Claim C8, witness: the theorem applied at level 16 and sample 100. -/
theorem C8_witness : (0 : ℤ) < 16 ∧
    quantizeSample 16 (quantizeSample 16 100) = quantizeSample 16 100 :=
  ⟨by decide, (C8_theorem 16 (by decide) 100).2⟩

/-- Claim C9, counterexample: the claim quantifies over all non-negative
counts and totals independently, but at count = 2, total = 0 the interval is
(2, 3), whose upper endpoint exceeds 1. -/
theorem C9_counterexample :
    ¬ (0 ≤ probLow 2 0 ∧ probLow 2 0 < probHigh 2 0 ∧ probHigh 2 0 ≤ 1) := by
  norm_num [probLow, probHigh]

/-- Claim C9, amended: the interval low = count / (total + 1),
high = (count + 1) / (total + 1) satisfies 0 ≤ low < high ≤ 1 whenever
count ≤ total, and every interval actually computed by `getProbability` on
any frequency table satisfies these bounds, because the global total always
includes the looked-up count. -/
theorem C9_amended : ∀ (c t : ℕ), c ≤ t →
    (0 ≤ probLow c t ∧ probLow c t < probHigh c t ∧ probHigh c t ≤ 1) ∧
    ∀ (tab : Table) (v : ℚ) (ctx : List ℚ),
      0 ≤ (getProbability tab v ctx).1 ∧
      (getProbability tab v ctx).1 < (getProbability tab v ctx).2 ∧
      (getProbability tab v ctx).2 ≤ 1 := by
  intro c t hct
  refine ⟨interval_valid c t hct, fun tab v ctx => ?_⟩
  exact interval_valid _ _ (getFrequency_le_totalFreq tab (ctx, v))

/-- Claim C9, witness: the amended theorem applied at count 1, total 3. -/
theorem C9_witness : (1 : ℕ) ≤ 3 ∧
    0 ≤ probLow 1 3 ∧ probLow 1 3 < probHigh 1 3 ∧ probHigh 1 3 ≤ 1 :=
  ⟨by decide, ((C9_amended 1 3 (by decide)).1).1, ((C9_amended 1 3 (by decide)).1).2.1,
    ((C9_amended 1 3 (by decide)).1).2.2⟩

/-- Claim C10: no operation of the class ever inserts into or modifies the
contexts frequency table after construction: every table reachable by any
sequence of `compress` calls is the empty table, and `getProbability` on it
returns the degenerate interval low = 0, high = 1. -/
theorem C10_theorem : ∀ (t : Table), ReachableTable t →
    t = [] ∧ ∀ (v : ℚ) (ctx : List ℚ), getProbability t v ctx = (0, 1) := by
  intro t ht
  induction ht with
  | init => exact ⟨rfl, fun v ctx => getProbability_nil v ctx⟩
  | step t' fuel cfg img _ ih => exact ih

/-- Claim C10, witness: the theorem applied to the freshly constructed
(empty) table. -/
theorem C10_witness : ([] : Table) = [] ∧ getProbability [] 0 [] = (0, 1) :=
  ⟨(C10_theorem [] ReachableTable.init).1, (C10_theorem [] ReachableTable.init).2 0 []⟩

end ImageDeepCABAC
